import Mathlib

/-!
# Verification of the `uuid_classifier` specification

A shallow embedding of the core logic of the `uuidy` repository
(`src/uuid_classifier`): identifier normalization (`db/models.py`,
`schemas/classification.py`), the BLE knowledge base and pattern matchers
(`utils/ble_patterns.py`), the heuristic classification engine
(`services/classifier_service.py`) and the cache gateway
(`services/cache_service.py`).

Python strings are embedded as `List Char`. Python `re` patterns used by the
code are fixed, anchored patterns over hex digits and hyphens; they are
embedded as deterministic matchers (the patterns contain no backtracking
ambiguity: hex-digit classes and the hyphen are disjoint).  Python's
`str.lower` is embedded as `Char.toLower` per character (the code only
lowercases ASCII identifier and keyword text).
-/

namespace UuidClassifier

abbrev Str := List Char

/-! ## Character-level helpers -/

/-- The character class `[0-9a-fA-F]` of the UUID regular expressions. -/
def isHexChar (c : Char) : Bool :=
  ('0' ≤ c && c ≤ '9') || ('a' ≤ c && c ≤ 'f') || ('A' ≤ c && c ≤ 'F')

/-- `str.lower` applied to every character. -/
def lowerStr (s : Str) : Str := s.map Char.toLower

/-- `value.replace("-", "")`. -/
def stripHyphens (s : Str) : Str := s.filter (fun c => c ≠ '-')

/-- Python substring containment (`needle in hay`). -/
def isSubstrOf : Str → Str → Bool
  | n, [] => n.isEmpty
  | n, h :: t => n.isPrefixOf (h :: t) || isSubstrOf n t

/-! ## The UUID format pattern

`UUID_PATTERN = ^[0-9a-fA-F]{8}-?[0-9a-fA-F]{4}-?[0-9a-fA-F]{4}-?[0-9a-fA-F]{4}-?[0-9a-fA-F]{12}$`
(identical in `db/models.py` and `schemas/classification.py`).  Since the
hex class and `-` are disjoint, the regex is deterministic and is embedded
as a straight-line consumer.  Python's `$` (without `re.MULTILINE`) matches
at the end of the string or just before a single newline at the end of the
string, so the remainder after the last hex group must be empty or exactly
one `'\n'`. -/

/-- Python's `$` anchor (no `MULTILINE`): end of input, or a single trailing
newline. -/
def matchDollar (t : Str) : Bool := t.isEmpty || t == ['\n']

/-- Consume exactly `n` hex characters. -/
def skipHex : Nat → Str → Option Str
  | 0, s => some s
  | _ + 1, [] => none
  | n + 1, c :: cs => if isHexChar c then skipHex n cs else none

/-- Consume an optional hyphen (`-?`). -/
def skipOptHyphen : Str → Str
  | '-' :: cs => cs
  | s => s

/-- `UUID_PATTERN.match(s) is not None`. -/
def matchUuidPattern (s : Str) : Bool :=
  match skipHex 8 s with
  | none => false
  | some s1 =>
  match skipHex 4 (skipOptHyphen s1) with
  | none => false
  | some s2 =>
  match skipHex 4 (skipOptHyphen s2) with
  | none => false
  | some s3 =>
  match skipHex 4 (skipOptHyphen s3) with
  | none => false
  | some s4 =>
  match skipHex 12 (skipOptHyphen s4) with
  | none => false
  | some s5 => matchDollar s5

/-- Reinsert hyphens at offsets 8, 12, 16, 20:
`clean[:8] + "-" + clean[8:12] + "-" + clean[12:16] + "-" + clean[16:20] + "-" + clean[20:]`. -/
def reinsertHyphens (s : Str) : Str :=
  s.take 8 ++ '-' :: ((s.drop 8).take 4) ++ '-' :: ((s.drop 12).take 4)
    ++ '-' :: ((s.drop 16).take 4) ++ '-' :: s.drop 20

/-- The normalization body shared by `db/models.py` and
`schemas/classification.py`: strip hyphens, lowercase, rehyphenate. -/
def normalize_clean (s : Str) : Str :=
  reinsertHyphens (lowerStr (stripHyphens s))

/-- `normalize_uuid` from `db/models.py`: validates against `UUID_PATTERN`
(raising `ValueError` on failure) and then normalizes.  The validator of
`schemas/classification.py` performs the same check before calling its own
(unvalidated) `normalize_uuid`, so this is also the schema-level contract. -/
def normalize_uuid (s : Str) : Except Str Str :=
  if matchUuidPattern s then Except.ok (normalize_clean s)
  else Except.error ("Invalid UUID format: ".toList ++ s)

/-! ## `utils/ble_patterns.py` -/

structure KnownService where
  uuid_short : Str
  name : Str
  description : Str
deriving DecidableEq

/-- `KNOWN_BLE_SERVICES`: the dict of Bluetooth SIG assigned services,
embedded as an association list in source order. -/
def KNOWN_BLE_SERVICES : List (Str × KnownService) := [
  ("1800".toList, ⟨"1800".toList, "Generic Access".toList,
    "Generic Access Profile service for device name and appearance".toList⟩),
  ("1801".toList, ⟨"1801".toList, "Generic Attribute".toList,
    "Generic Attribute Profile service for service discovery".toList⟩),
  ("1802".toList, ⟨"1802".toList, "Immediate Alert".toList,
    "Immediate Alert service for alerting devices".toList⟩),
  ("1803".toList, ⟨"1803".toList, "Link Loss".toList,
    "Link Loss service for proximity detection".toList⟩),
  ("1804".toList, ⟨"1804".toList, "Tx Power".toList,
    "Tx Power service for transmission power reporting".toList⟩),
  ("1805".toList, ⟨"1805".toList, "Current Time".toList,
    "Current Time service for time synchronization".toList⟩),
  ("1806".toList, ⟨"1806".toList, "Reference Time Update".toList,
    "Reference Time Update service for time calibration".toList⟩),
  ("1807".toList, ⟨"1807".toList, "Next DST Change".toList,
    "Next DST Change service for daylight saving time updates".toList⟩),
  ("1808".toList, ⟨"1808".toList, "Glucose".toList,
    "Glucose service for blood glucose monitoring".toList⟩),
  ("1809".toList, ⟨"1809".toList, "Health Thermometer".toList,
    "Health Thermometer service for body temperature measurement".toList⟩),
  ("180a".toList, ⟨"180A".toList, "Device Information".toList,
    "Device Information service for manufacturer and model data".toList⟩),
  ("180d".toList, ⟨"180D".toList, "Heart Rate".toList,
    "Heart Rate service for heart rate monitoring".toList⟩),
  ("180e".toList, ⟨"180E".toList, "Phone Alert Status".toList,
    "Phone Alert Status service for phone alerts".toList⟩),
  ("180f".toList, ⟨"180F".toList, "Battery Service".toList,
    "Battery Service for battery level reporting".toList⟩),
  ("1810".toList, ⟨"1810".toList, "Blood Pressure".toList,
    "Blood Pressure service for blood pressure monitoring".toList⟩),
  ("1811".toList, ⟨"1811".toList, "Alert Notification".toList,
    "Alert Notification service for push notifications".toList⟩),
  ("1812".toList, ⟨"1812".toList, "Human Interface Device".toList,
    "Human Interface Device service for HID over GATT".toList⟩),
  ("1813".toList, ⟨"1813".toList, "Scan Parameters".toList,
    "Scan Parameters service for scan configuration".toList⟩),
  ("1814".toList, ⟨"1814".toList, "Running Speed and Cadence".toList,
    "Running Speed and Cadence service for fitness tracking".toList⟩),
  ("1816".toList, ⟨"1816".toList, "Cycling Speed and Cadence".toList,
    "Cycling Speed and Cadence service for cycling fitness".toList⟩),
  ("1818".toList, ⟨"1818".toList, "Cycling Power".toList,
    "Cycling Power service for power meters".toList⟩),
  ("1819".toList, ⟨"1819".toList, "Location and Navigation".toList,
    "Location and Navigation service for GPS data".toList⟩),
  ("181a".toList, ⟨"181A".toList, "Environmental Sensing".toList,
    "Environmental Sensing service for environmental data".toList⟩),
  ("181c".toList, ⟨"181C".toList, "User Data".toList,
    "User Data service for user profile information".toList⟩),
  ("181d".toList, ⟨"181D".toList, "Weight Scale".toList,
    "Weight Scale service for body weight measurement".toList⟩),
  ("181e".toList, ⟨"181E".toList, "Bond Management".toList,
    "Bond Management service for pairing management".toList⟩),
  ("181f".toList, ⟨"181F".toList, "Continuous Glucose Monitoring".toList,
    "Continuous Glucose Monitoring service for CGM devices".toList⟩),
  ("1820".toList, ⟨"1820".toList, "Internet Protocol Support".toList,
    "Internet Protocol Support service for IP connectivity".toList⟩),
  ("1821".toList, ⟨"1821".toList, "Indoor Positioning".toList,
    "Indoor Positioning service for indoor location".toList⟩),
  ("1822".toList, ⟨"1822".toList, "Pulse Oximeter".toList,
    "Pulse Oximeter service for SpO2 measurement".toList⟩),
  ("1823".toList, ⟨"1823".toList, "HTTP Proxy".toList,
    "HTTP Proxy service for web access via BLE".toList⟩),
  ("1824".toList, ⟨"1824".toList, "Transport Discovery".toList,
    "Transport Discovery service for transport discovery".toList⟩),
  ("1825".toList, ⟨"1825".toList, "Object Transfer".toList,
    "Object Transfer service for file transfer".toList⟩),
  ("1826".toList, ⟨"1826".toList, "Fitness Machine".toList,
    "Fitness Machine service for fitness equipment".toList⟩),
  ("1827".toList, ⟨"1827".toList, "Mesh Provisioning".toList,
    "Mesh Provisioning service for Bluetooth Mesh".toList⟩),
  ("1828".toList, ⟨"1828".toList, "Mesh Proxy".toList,
    "Mesh Proxy service for Bluetooth Mesh".toList⟩)]

def VENDOR_INDICATORS : List Str :=
  ["apple", "samsung", "google", "fitbit", "garmin", "nordic",
   "nordic semiconductor", "texas instruments", "silicon labs", "espressif",
   "qualcomm", "broadcom", "xiaomi", "huawei", "microsoft", "amazon",
   "nrf"].map String.toList

def IBEACON_INDICATORS : List Str :=
  ["ibeacon", "i-beacon", "apple beacon", "proximity uuid"].map String.toList

def EDDYSTONE_INDICATORS : List Str :=
  ["eddystone", "google beacon", "eddystone-uid", "eddystone-url",
   "eddystone-tlm", "eddystone-eid"].map String.toList

def AUTHORITATIVE_DOMAINS : List Str :=
  ["bluetooth.com", "bluetooth.org", "developer.apple.com",
   "developer.android.com", "developer.nordicsemi.com",
   "infocenter.nordicsemi.com", "ti.com", "silabs.com"].map String.toList

/-! `BLUETOOTH_SIG_UUID_PATTERN = ^0000([0-9a-f]{4})-0000-1000-8000-00805f9b34fb$`
with `re.IGNORECASE`.  A case-insensitive literal character matches a
character whose `lower()` equals the (lowercase) pattern character, and under
`IGNORECASE` the class `[0-9a-f]` is exactly `isHexChar`. -/

/-- Case-insensitively consume a literal pattern (given in lowercase). -/
def matchLitCI : Str → Str → Option Str
  | [], s => some s
  | _ :: _, [] => none
  | p :: ps, c :: cs => if Char.toLower c = p then matchLitCI ps cs else none

/-- Consume and return exactly `n` hex characters (a capture group). -/
def grabHex : Nat → Str → Option (Str × Str)
  | 0, s => some ([], s)
  | _ + 1, [] => none
  | n + 1, c :: cs =>
    if isHexChar c then
      match grabHex n cs with
      | some (g, r) => some (c :: g, r)
      | none => none
    else none

/-- The fixed tail of the Bluetooth SIG base UUID pattern. -/
def SIG_SUFFIX : Str := "-0000-1000-8000-00805f9b34fb".toList

/-- `extract_short_uuid`: match the SIG pattern and return
`match.group(1).lower()`.  The `$` anchor again accepts a single trailing
newline. -/
def extract_short_uuid (s : Str) : Option Str :=
  match matchLitCI "0000".toList s with
  | none => none
  | some s1 =>
  match grabHex 4 s1 with
  | none => none
  | some (g, s2) =>
  match matchLitCI SIG_SUFFIX s2 with
  | some rest => if matchDollar rest then some (lowerStr g) else none
  | none => none

/-- `is_bluetooth_sig_uuid`: the same pattern, used as a boolean test. -/
def is_bluetooth_sig_uuid (s : Str) : Bool :=
  (extract_short_uuid s).isSome

/-- `get_known_service`. -/
def get_known_service (s : Str) : Option KnownService :=
  match extract_short_uuid s with
  | some short => KNOWN_BLE_SERVICES.lookup short
  | none => none

/-- `is_authoritative_source`: some trusted domain is a substring of the
lowercased URL. -/
def is_authoritative_source (url : Str) : Bool :=
  AUTHORITATIVE_DOMAINS.any (fun d => isSubstrOf d (lowerStr url))

/-! ## `schemas/classification.py` -/

inductive ConfidenceLevel
  | HIGH
  | MEDIUM
  | LOW
deriving DecidableEq

/-- The `StrEnum` value of a confidence level. -/
def ConfidenceLevel.value : ConfidenceLevel → Str
  | .HIGH => "high".toList
  | .MEDIUM => "medium".toList
  | .LOW => "low".toList

/-- `ConfidenceLevel(s)`: parse a stored string back into the enum. -/
def ConfidenceLevel.ofValue (s : Str) : Option ConfidenceLevel :=
  if s = "high".toList then some .HIGH
  else if s = "medium".toList then some .MEDIUM
  else if s = "low".toList then some .LOW
  else none

inductive ClassificationType
  | STANDARD_BLE_SERVICE
  | VENDOR_SPECIFIC
  | APPLE_IBEACON
  | GOOGLE_EDDYSTONE
  | CUSTOM_SERVICE
  | UNKNOWN
deriving DecidableEq

/-- The `StrEnum` value of a classification type. -/
def ClassificationType.value : ClassificationType → Str
  | .STANDARD_BLE_SERVICE => "Standard BLE Service".toList
  | .VENDOR_SPECIFIC => "Vendor-Specific".toList
  | .APPLE_IBEACON => "Apple iBeacon".toList
  | .GOOGLE_EDDYSTONE => "Google Eddystone".toList
  | .CUSTOM_SERVICE => "Custom Service".toList
  | .UNKNOWN => "Unknown".toList

/-- `ClassificationType(s)`: parse a stored string back into the enum. -/
def ClassificationType.ofValue (s : Str) : Option ClassificationType :=
  if s = "Standard BLE Service".toList then some .STANDARD_BLE_SERVICE
  else if s = "Vendor-Specific".toList then some .VENDOR_SPECIFIC
  else if s = "Apple iBeacon".toList then some .APPLE_IBEACON
  else if s = "Google Eddystone".toList then some .GOOGLE_EDDYSTONE
  else if s = "Custom Service".toList then some .CUSTOM_SERVICE
  else if s = "Unknown".toList then some .UNKNOWN
  else none

/-- A search result as passed from the search service to the classifier.
`snippet` defaults to the empty string; `position` is the 1-indexed rank. -/
structure SearchResult where
  title : Str
  url : Str
  snippet : Str
  position : Nat
deriving DecidableEq

/-- A source reference as stored on a classification record.  The URL text is
kept verbatim (the `HttpUrl` wrapper of the library may normalize its textual
form, which no claim depends on). -/
structure SourceInfo where
  title : Str
  url : Str
  snippet : Str
deriving DecidableEq

/-- The draft classification record (`ClassificationCreate`).  Its only
validator normalizes the `uuid` field; there is no confidence correction on
the draft model.  `searched_at` timestamps are embedded as `Nat`. -/
structure ClassificationCreate where
  uuid : Str
  name : Str
  type : ClassificationType
  description : Str
  sources : List SourceInfo
  confidence : ConfidenceLevel
  searched_at : Nat
deriving DecidableEq

/-- Constructing a `ClassificationCreate`: the `uuid` field validator rejects
strings not matching `UUID_PATTERN` and otherwise stores the normalized form. -/
def mkClassificationCreate (uuid name : Str) (ty : ClassificationType)
    (description : Str) (sources : List SourceInfo)
    (confidence : ConfidenceLevel) (searched_at : Nat) :
    Except Str ClassificationCreate :=
  if matchUuidPattern uuid then
    Except.ok ⟨normalize_clean uuid, name, ty, description, sources,
      confidence, searched_at⟩
  else Except.error "Invalid UUID format".toList

/-- The response view of a classification record. -/
structure ClassificationResponse where
  uuid : Str
  name : Str
  type : ClassificationType
  description : Str
  sources : List SourceInfo
  confidence : ConfidenceLevel
  cached : Bool
  searched_at : Nat
deriving DecidableEq

/-- Constructing a `ClassificationResponse`: the `uuid` field validator runs
first (reject or normalize), then the model validator
`validate_unknown_has_low_confidence` silently rewrites the confidence of an
`UNKNOWN`-typed response to `LOW`. -/
def mkClassificationResponse (uuid name : Str) (ty : ClassificationType)
    (description : Str) (sources : List SourceInfo)
    (confidence : ConfidenceLevel) (cached : Bool) (searched_at : Nat) :
    Except Str ClassificationResponse :=
  if matchUuidPattern uuid then
    let conf := if ty = ClassificationType.UNKNOWN ∧
        confidence ≠ ConfidenceLevel.LOW then ConfidenceLevel.LOW
      else confidence
    Except.ok ⟨normalize_clean uuid, name, ty, description, sources, conf,
      cached, searched_at⟩
  else Except.error "Invalid UUID format".toList

/-! ## `services/classifier_service.py` -/

/-- Modelled from the spec: the validity test applied by the external
`pydantic.HttpUrl` wrapper when a search-result URL is converted to a source
URL ("skip any result whose `url` cannot be represented as a valid source
URL").  Approximated as requiring an explicit http or https scheme; the
library rejects scheme-less text such as `www.example.com`. -/
def isValidSourceUrl (u : Str) : Bool :=
  "http://".toList.isPrefixOf u || "https://".toList.isPrefixOf u

def NO_SNIPPET : Str := "No snippet available".toList

/-- The `SourceInfo` built from one search result: snippet replaced by the
fixed placeholder when empty. -/
def source_of_result (r : SearchResult) : SourceInfo :=
  ⟨r.title, r.url, if r.snippet.isEmpty then NO_SNIPPET else r.snippet⟩

/-- `SourceInfo(...)` construction succeeds iff the URL is representable and
the (min-length-1) title is non-empty; the snippet is never empty thanks to
the placeholder.  A `ValueError` from construction is caught and the result
skipped. -/
def usable_source (r : SearchResult) : Bool :=
  isValidSourceUrl r.url && !r.title.isEmpty

/-- `_build_sources`: truncate to the first 5 results, then convert each,
skipping results whose conversion fails. -/
def build_sources (rs : List SearchResult) : List SourceInfo :=
  (rs.take 5).filterMap
    (fun r => if usable_source r then some (source_of_result r) else none)

/-- `_combine_result_text`: every title, plus every non-empty snippet, joined
by single spaces. -/
def combine_result_text (rs : List SearchResult) : Str :=
  joinSpace (rs.flatMap
    (fun r => r.title :: (if r.snippet.isEmpty then [] else [r.snippet])))
where
  joinSpace : List Str → Str
    | [] => []
    | [s] => s
    | s :: rest => s ++ ' ' :: joinSpace rest

/-- `_detect_type`: first-match-wins heuristics over the lowercased
concatenation of all result text. -/
def detect_type (uuid : Str) (rs : List SearchResult) : ClassificationType :=
  let all_text := lowerStr (combine_result_text rs)
  if IBEACON_INDICATORS.any (fun i => isSubstrOf i all_text) then
    ClassificationType.APPLE_IBEACON
  else if EDDYSTONE_INDICATORS.any (fun i => isSubstrOf i all_text) then
    ClassificationType.GOOGLE_EDDYSTONE
  else if is_bluetooth_sig_uuid uuid then
    ClassificationType.STANDARD_BLE_SERVICE
  else if VENDOR_INDICATORS.any (fun v => isSubstrOf v all_text) then
    ClassificationType.VENDOR_SPECIFIC
  else if (["bluetooth", "ble", "gatt", "service", "characteristic"].map
      String.toList).any (fun i => isSubstrOf i all_text) then
    ClassificationType.CUSTOM_SERVICE
  else
    ClassificationType.UNKNOWN

/-- `_calculate_confidence`: count results mentioning the extracted name and
results from authoritative domains. -/
def calculate_confidence (rs : List SearchResult) (extracted_name : Str) :
    ConfidenceLevel :=
  if rs.isEmpty ∨ extracted_name = "Unknown".toList then ConfidenceLevel.LOW
  else
    let name_lower := lowerStr extracted_name
    let name_mentions :=
      rs.countP (fun r => isSubstrOf name_lower (lowerStr (r.title ++ ' ' :: r.snippet)))
    let authoritative_count := rs.countP (fun r => is_authoritative_source r.url)
    if 3 ≤ name_mentions ∧ 1 ≤ authoritative_count then ConfidenceLevel.HIGH
    else if 2 ≤ name_mentions ∨ 1 ≤ authoritative_count then
      ConfidenceLevel.MEDIUM
    else ConfidenceLevel.LOW

/-- The snippet-selection loop of `_generate_description`: the first snippet
from an authoritative source, else the first non-empty snippet. -/
def pick_best_snippet : List SearchResult → Option Str → Option Str
  | [], best => best
  | r :: rest, best =>
    if r.snippet.isEmpty then pick_best_snippet rest best
    else if is_authoritative_source r.url then some r.snippet
    else
      match best with
      | none => pick_best_snippet rest (some r.snippet)
      | some b => pick_best_snippet rest (some b)

/-- `_generate_description`: a type-keyed template, optionally extended by the
best supporting snippet (truncated to 200 characters). -/
def generate_description (name : Str) (ty : ClassificationType)
    (rs : List SearchResult) : Str :=
  let base : Str :=
    match ty with
    | .STANDARD_BLE_SERVICE =>
      "Bluetooth SIG standardized ".toList ++ name ++ " service".toList
    | .VENDOR_SPECIFIC => "Vendor-specific ".toList ++ name ++ " service".toList
    | .APPLE_IBEACON => "Apple iBeacon ".toList ++ name
    | .GOOGLE_EDDYSTONE => "Google Eddystone ".toList ++ name
    | .CUSTOM_SERVICE => "Custom BLE ".toList ++ name ++ " service".toList
    | .UNKNOWN => "Unable to identify this UUID".toList
  if rs.isEmpty then base
  else
    match pick_best_snippet rs none with
    | none => base
    | some sn =>
      if 20 < sn.length then
        base ++ ". ".toList ++
          (if 200 < sn.length then sn.take 197 ++ "...".toList else sn)
      else base

/-- The fixed description of the Unknown classification. -/
def UNKNOWN_DESCRIPTION : Str :=
  "Unable to identify this UUID. No information found in search results.".toList

/-- `ClassifierService.classify`.  The name-extraction step
(`_extract_name`, a bank of free-text regular expressions whose output no
claim inspects) is a parameter `extractName`; every other step is embedded
concretely.  `now` stands for `datetime.now(UTC)`. -/
def classify (extractName : List SearchResult → Str) (uuid : Str)
    (search_results : List SearchResult) (now : Nat) :
    Except Str ClassificationCreate :=
  match get_known_service uuid with
  | some service =>
    mkClassificationCreate uuid service.name
      ClassificationType.STANDARD_BLE_SERVICE service.description
      (build_sources search_results) ConfidenceLevel.HIGH now
  | none =>
    if search_results.isEmpty then
      mkClassificationCreate uuid "Unknown".toList ClassificationType.UNKNOWN
        UNKNOWN_DESCRIPTION [] ConfidenceLevel.LOW now
    else
      let classification_type := detect_type uuid search_results
      let name := extractName search_results
      mkClassificationCreate uuid name classification_type
        (generate_description name classification_type search_results)
        (build_sources search_results)
        (calculate_confidence search_results name) now

/-! ## `services/cache_service.py` and `db/models.py` storage -/

/-- A stored `uuid_classifications` row: enum fields are persisted as their
string values. -/
structure UUIDClassificationRecord where
  uuid : Str
  name : Str
  type : Str
  description : Str
  sources : List SourceInfo
  confidence : Str
  searched_at : Nat
deriving DecidableEq

/-- The database table, keyed by the primary-key `uuid` column. -/
abbrev Store := List (Str × UUIDClassificationRecord)

/-- `CacheService._to_response`: parse the stored enum strings back and build
a response view (whose construction re-validates the UUID and applies the
Unknown-implies-Low correction). -/
def record_to_response (r : UUIDClassificationRecord) (cached : Bool) :
    Except Str ClassificationResponse :=
  match ClassificationType.ofValue r.type, ConfidenceLevel.ofValue r.confidence with
  | some ty, some conf =>
    mkClassificationResponse r.uuid r.name ty r.description r.sources conf
      cached r.searched_at
  | _, _ => Except.error "invalid stored enum value".toList

/-- The duplicate-key error message of `save_classification`. -/
def duplicate_error (uuid : Str) : Str :=
  "Classification for UUID ".toList ++ uuid ++ " already exists".toList

/-- `CacheService.save_classification`: normalize the draft's UUID (a
`ValueError` propagates), build the row (whose `__init__` normalizes again),
flush — which raises `IntegrityError` on a duplicate primary key, rolled back
and re-raised as a duplicate `ValueError` with the store untouched — and
return the row as a non-cached response. -/
def save_classification (store : Store) (data : ClassificationCreate) :
    Store × Except Str ClassificationResponse :=
  match normalize_uuid data.uuid with
  | Except.error e => (store, Except.error e)
  | Except.ok n =>
  match normalize_uuid n with
  | Except.error e => (store, Except.error e)
  | Except.ok n2 =>
    let row : UUIDClassificationRecord :=
      ⟨n2, data.name, data.type.value, data.description, data.sources,
        data.confidence.value, data.searched_at⟩
    if (store.lookup n2).isSome then (store, Except.error (duplicate_error n2))
    else ((n2, row) :: store, record_to_response row false)

/-- `CacheService.get_classification`: a normalization failure is a miss, a
missing key is a miss, a hit is rendered as a cached response. -/
def get_classification (store : Store) (uuid : Str) :
    Except Str (Option ClassificationResponse) :=
  match normalize_uuid uuid with
  | Except.error _ => Except.ok none
  | Except.ok n =>
    match store.lookup n with
    | none => Except.ok none
    | some row => (record_to_response row true).map some

/-! ## Character-level lemmas -/

theorem toNat_ofNat_valid {n : Nat} (h : n.isValidChar) : (Char.ofNat n).toNat = n := by
  rw [Char.ofNat, dif_pos h]
  rfl

theorem toLower_cases (c : Char) :
    Char.toLower c = c ∨
      (65 ≤ c.toNat ∧ c.toNat ≤ 90 ∧ (Char.toLower c).toNat = c.toNat + 32) := by
  by_cases hr : 65 ≤ c.toNat ∧ c.toNat ≤ 90
  · right
    refine ⟨hr.1, hr.2, ?_⟩
    have hlow : Char.toLower c = Char.ofNat (c.toNat + 32) := by
      unfold Char.toLower
      exact if_pos ⟨hr.1, hr.2⟩
    rw [hlow]
    exact toNat_ofNat_valid (Or.inl (by omega))
  · left
    unfold Char.toLower
    exact if_neg hr

theorem char_toNat_inj {a b : Char} (h : a.toNat = b.toNat) : a = b := by
  have h2 := congrArg Char.ofNat h
  simpa using h2

theorem char_le_iff {a b : Char} : a ≤ b ↔ a.toNat ≤ b.toNat := by
  rw [Char.le_def, UInt32.le_def, BitVec.le_def]
  exact Iff.rfl

theorem isHexChar_iff {c : Char} :
    isHexChar c = true ↔
      (48 ≤ c.toNat ∧ c.toNat ≤ 57) ∨ (97 ≤ c.toNat ∧ c.toNat ≤ 102) ∨
        (65 ≤ c.toNat ∧ c.toNat ≤ 70) := by
  obtain ⟨d0, d9, da, df, dA, dF⟩ :
      ('0' : Char).toNat = 48 ∧ ('9' : Char).toNat = 57 ∧
        ('a' : Char).toNat = 97 ∧ ('f' : Char).toNat = 102 ∧
        ('A' : Char).toNat = 65 ∧ ('F' : Char).toNat = 70 :=
    ⟨rfl, rfl, rfl, rfl, rfl, rfl⟩
  simp only [isHexChar, Bool.or_eq_true, Bool.and_eq_true, decide_eq_true_eq,
    char_le_iff, d0, d9, da, df, dA, dF]
  tauto

theorem hexChar_of_toLower {c d : Char} (h : Char.toLower c = d)
    (hd : isHexChar d = true) : isHexChar c = true := by
  rcases toLower_cases c with hc | ⟨h1, h2, h3⟩
  · rw [hc] at h
    rw [h]
    exact hd
  · rw [h] at h3
    rw [isHexChar_iff] at hd ⊢
    omega

theorem toLower_eq_hyphen {c : Char} (h : Char.toLower c = '-') : c = '-' := by
  rcases toLower_cases c with hc | ⟨h1, h2, h3⟩
  · rw [← hc]
    exact h
  · rw [h] at h3
    have : ('-' : Char).toNat = 45 := rfl
    omega

theorem hexChar_toLower {c : Char} (h : isHexChar c = true) :
    isHexChar (Char.toLower c) = true := by
  rcases toLower_cases c with hc | ⟨h1, h2, h3⟩
  · rw [hc]
    exact h
  · rw [isHexChar_iff] at h ⊢
    omega

theorem toLower_toLower_hex {c : Char} (h : isHexChar c = true) :
    Char.toLower (Char.toLower c) = Char.toLower c := by
  rcases toLower_cases c with hc | ⟨h1, h2, h3⟩
  · rw [hc]
    exact hc
  · rcases toLower_cases (Char.toLower c) with hc2 | ⟨g1, g2, g3⟩
    · exact hc2
    · rw [isHexChar_iff] at h
      omega

theorem hexChar_ne_hyphen {c : Char} (h : isHexChar c = true) : c ≠ '-' := by
  intro hc
  rw [hc] at h
  simp [isHexChar_iff] at h

/-! pattern machinery lemmas -/

theorem skipHex_iff {n : Nat} {s t : Str} :
    skipHex n s = some t ↔
      ∃ p, s = p ++ t ∧ p.length = n ∧ p.all isHexChar = true := by
  induction n generalizing s with
  | zero =>
    simp only [skipHex, Option.some_inj]
    constructor
    · rintro rfl
      exact ⟨[], rfl, rfl, rfl⟩
    · rintro ⟨p, rfl, hl, _⟩
      rw [List.length_eq_zero] at hl
      rw [hl, List.nil_append]
  | succ n ih =>
    cases s with
    | nil =>
      simp only [skipHex]
      constructor
      · intro h
        cases h
      · rintro ⟨p, hp, hl, _⟩
        have := congrArg List.length hp
        simp at this
        omega
    | cons c cs =>
      by_cases hc : isHexChar c = true
      · rw [show skipHex (n + 1) (c :: cs) = skipHex n cs from by
          simp [skipHex, hc]]
        rw [ih]
        constructor
        · rintro ⟨p, rfl, hl, hall⟩
          exact ⟨c :: p, rfl, by simp [hl], by simp [hc, hall]⟩
        · rintro ⟨p, hp, hl, hall⟩
          cases p with
          | nil => simp at hl
          | cons d ds =>
            simp only [List.cons_append, List.cons.injEq] at hp
            rcases hp with ⟨rfl, rfl⟩
            simp only [List.all_cons, Bool.and_eq_true] at hall
            exact ⟨ds, rfl, by simpa using hl, hall.2⟩
      · rw [show skipHex (n + 1) (c :: cs) = none from by simp [skipHex, hc]]
        constructor
        · intro h
          cases h
        · rintro ⟨p, hp, hl, hall⟩
          cases p with
          | nil => simp at hl
          | cons d ds =>
            simp only [List.cons_append, List.cons.injEq] at hp
            rcases hp with ⟨rfl, rfl⟩
            simp only [List.all_cons, Bool.and_eq_true] at hall
            exact absurd hall.1 hc

theorem skipOptHyphen_hyphen (s : Str) : skipOptHyphen ('-' :: s) = s := rfl

theorem stripHyphens_skipOptHyphen (s : Str) :
    stripHyphens (skipOptHyphen s) = stripHyphens s := by
  cases s with
  | nil => rfl
  | cons c cs =>
    unfold skipOptHyphen
    split
    · rename_i cs2 heq
      injection heq with hc hcs
      subst hc
      subst hcs
      simp [stripHyphens]
    · rfl

theorem stripHyphens_all_hex {p : Str} (h : p.all isHexChar = true) :
    stripHyphens p = p := by
  rw [stripHyphens, List.filter_eq_self]
  intro a ha
  simp only [List.all_eq_true] at h
  simpa using hexChar_ne_hyphen (h a ha)

theorem stripHyphens_append (a b : Str) :
    stripHyphens (a ++ b) = stripHyphens a ++ stripHyphens b := by
  simp [stripHyphens]

theorem matchDollar_elim {t : Str} (h : matchDollar t = true) :
    t = [] ∨ t = ['\n'] := by
  simp only [matchDollar, Bool.or_eq_true, List.isEmpty_eq_true,
    beq_iff_eq] at h
  exact h

theorem matchDollar_of_cases {t : Str} (h : t = [] ∨ t = ['\n']) :
    matchDollar t = true := by
  rcases h with rfl | rfl <;> rfl

theorem stripHyphens_dollar {t : Str} (h : t = [] ∨ t = ['\n']) :
    stripHyphens t = t := by
  rcases h with rfl | rfl <;> rfl

theorem lowerStr_dollar {t : Str} (h : t = [] ∨ t = ['\n']) :
    lowerStr t = t := by
  rcases h with rfl | rfl <;> rfl

theorem lowerStr_append (a b : Str) :
    lowerStr (a ++ b) = lowerStr a ++ lowerStr b := by
  simp [lowerStr]

theorem stripHyphens_of_no_hyphen {v : Str} (h : ∀ c ∈ v, c ≠ '-') :
    stripHyphens v = v := by
  rw [stripHyphens, List.filter_eq_self]
  intro a ha
  simpa using h a ha

theorem take_append_le {n : Nat} (a b : Str) (h : n ≤ a.length) :
    (a ++ b).take n = a.take n := by
  rw [List.take_append_eq_append_take, Nat.sub_eq_zero_of_le h]
  simp

theorem drop_append_le {n : Nat} (a b : Str) (h : n ≤ a.length) :
    (a ++ b).drop n = a.drop n ++ b := by
  rw [List.drop_append_eq_append_drop, Nat.sub_eq_zero_of_le h]
  simp

/-- Forward decomposition: a matching string strips to exactly 32 hex chars,
possibly followed by the single trailing newline accepted by `$`. -/
theorem strip_of_match {s : Str} (h : matchUuidPattern s = true) :
    ∃ u t, stripHyphens s = u ++ t ∧ u.length = 32 ∧
      u.all isHexChar = true ∧ (t = [] ∨ t = ['\n']) := by
  unfold matchUuidPattern at h
  cases h1 : skipHex 8 s with
  | none => simp only [h1] at h; cases h
  | some s1 =>
  simp only [h1] at h
  cases h2 : skipHex 4 (skipOptHyphen s1) with
  | none => simp only [h2] at h; cases h
  | some s2 =>
  simp only [h2] at h
  cases h3 : skipHex 4 (skipOptHyphen s2) with
  | none => simp only [h3] at h; cases h
  | some s3 =>
  simp only [h3] at h
  cases h4 : skipHex 4 (skipOptHyphen s3) with
  | none => simp only [h4] at h; cases h
  | some s4 =>
  simp only [h4] at h
  cases h5 : skipHex 12 (skipOptHyphen s4) with
  | none => simp only [h5] at h; cases h
  | some s5 =>
  simp only [h5] at h
  have ht := matchDollar_elim h
  rw [skipHex_iff] at h1 h2 h3 h4 h5
  rcases h1 with ⟨p1, hp1, hl1, ha1⟩
  rcases h2 with ⟨p2, hp2, hl2, ha2⟩
  rcases h3 with ⟨p3, hp3, hl3, ha3⟩
  rcases h4 with ⟨p4, hp4, hl4, ha4⟩
  rcases h5 with ⟨p5, hp5, hl5, ha5⟩
  have e1 : stripHyphens s =
      p1 ++ p2 ++ p3 ++ p4 ++ p5 ++ s5 := by
    rw [hp1, stripHyphens_append, stripHyphens_all_hex ha1]
    rw [← stripHyphens_skipOptHyphen s1, hp2, stripHyphens_append,
      stripHyphens_all_hex ha2]
    rw [← stripHyphens_skipOptHyphen s2, hp3, stripHyphens_append,
      stripHyphens_all_hex ha3]
    rw [← stripHyphens_skipOptHyphen s3, hp4, stripHyphens_append,
      stripHyphens_all_hex ha4]
    rw [← stripHyphens_skipOptHyphen s4, hp5, stripHyphens_append,
      stripHyphens_all_hex ha5]
    rw [stripHyphens_dollar ht]
    simp [List.append_assoc]
  refine ⟨p1 ++ p2 ++ p3 ++ p4 ++ p5, s5, e1, ?_, ?_, ht⟩
  · simp [hl1, hl2, hl3, hl4, hl5]
  · simp [ha1, ha2, ha3, ha4, ha5]

/-- Backward construction: a correctly shaped hyphenated string, followed by
an empty or single-newline tail, matches. -/
theorem matchUuid_of_shape {a b c d e t : Str}
    (hha : a.all isHexChar = true) (hhb : b.all isHexChar = true)
    (hhc : c.all isHexChar = true) (hhd : d.all isHexChar = true)
    (hhe : e.all isHexChar = true)
    (hla : a.length = 8) (hlb : b.length = 4) (hlc : c.length = 4)
    (hld : d.length = 4) (hle : e.length = 12)
    (ht : t = [] ∨ t = ['\n']) :
    matchUuidPattern
      (a ++ '-' :: (b ++ '-' :: (c ++ '-' :: (d ++ '-' :: (e ++ t))))) = true := by
  have k1 : skipHex 8
      (a ++ '-' :: (b ++ '-' :: (c ++ '-' :: (d ++ '-' :: (e ++ t))))) =
      some ('-' :: (b ++ '-' :: (c ++ '-' :: (d ++ '-' :: (e ++ t))))) := by
    rw [skipHex_iff]
    exact ⟨a, rfl, hla, hha⟩
  have k2 : skipHex 4 (b ++ '-' :: (c ++ '-' :: (d ++ '-' :: (e ++ t)))) =
      some ('-' :: (c ++ '-' :: (d ++ '-' :: (e ++ t)))) := by
    rw [skipHex_iff]
    exact ⟨b, rfl, hlb, hhb⟩
  have k3 : skipHex 4 (c ++ '-' :: (d ++ '-' :: (e ++ t))) =
      some ('-' :: (d ++ '-' :: (e ++ t))) := by
    rw [skipHex_iff]
    exact ⟨c, rfl, hlc, hhc⟩
  have k4 : skipHex 4 (d ++ '-' :: (e ++ t)) = some ('-' :: (e ++ t)) := by
    rw [skipHex_iff]
    exact ⟨d, rfl, hld, hhd⟩
  have k5 : skipHex 12 (e ++ t) = some t := by
    rw [skipHex_iff]
    exact ⟨e, rfl, hle, hhe⟩
  unfold matchUuidPattern
  simp only [k1, skipOptHyphen_hyphen, k2, k3, k4, k5]
  exact matchDollar_of_cases ht

/-! canonical-form lemmas -/

theorem lowerStr_all_hex {u : Str} (h : u.all isHexChar = true) :
    (lowerStr u).all isHexChar = true := by
  simp only [lowerStr, List.all_map, List.all_eq_true] at h ⊢
  intro c hc
  exact hexChar_toLower (h c hc)

theorem lowerStr_lowerStr_hex {u : Str} (h : u.all isHexChar = true) :
    lowerStr (lowerStr u) = lowerStr u := by
  simp only [lowerStr, List.map_map]
  apply List.map_congr_left
  intro c hc
  simp only [List.all_eq_true] at h
  exact toLower_toLower_hex (h c hc)

theorem all_take {u : Str} {p : Char → Bool} (n : Nat) (h : u.all p = true) :
    (u.take n).all p = true := by
  simp only [List.all_eq_true] at h ⊢
  intro c hc
  exact h c (List.take_subset n u hc)

theorem all_drop {u : Str} {p : Char → Bool} (n : Nat) (h : u.all p = true) :
    (u.drop n).all p = true := by
  simp only [List.all_eq_true] at h ⊢
  intro c hc
  exact h c (List.drop_subset n u hc)

theorem matchUuid_reinsert {u t : Str} (hl : u.length = 32)
    (hh : u.all isHexChar = true) (ht : t = [] ∨ t = ['\n']) :
    matchUuidPattern (reinsertHyphens (u ++ t)) = true := by
  have hre : reinsertHyphens (u ++ t) =
      u.take 8 ++ '-' :: ((u.drop 8).take 4) ++ '-' :: ((u.drop 12).take 4)
        ++ '-' :: ((u.drop 16).take 4) ++ '-' :: (u.drop 20 ++ t) := by
    unfold reinsertHyphens
    rw [take_append_le u t (by omega), drop_append_le u t (by omega),
      take_append_le (u.drop 8) t (by rw [List.length_drop]; omega),
      drop_append_le u t (by omega : 12 ≤ u.length),
      take_append_le (u.drop 12) t (by rw [List.length_drop]; omega),
      drop_append_le u t (by omega : 16 ≤ u.length),
      take_append_le (u.drop 16) t (by rw [List.length_drop]; omega),
      drop_append_le u t (by omega : 20 ≤ u.length)]
  rw [hre]
  simp only [List.append_assoc, List.cons_append]
  exact matchUuid_of_shape (all_take 8 hh) (all_take 4 (all_drop 8 hh))
    (all_take 4 (all_drop 12 hh)) (all_take 4 (all_drop 16 hh))
    (all_drop 20 hh)
    (by simp [List.length_take, hl])
    (by simp [List.length_take, List.length_drop, hl])
    (by simp [List.length_take, List.length_drop, hl])
    (by simp [List.length_take, List.length_drop, hl])
    (by simp [List.length_drop, hl]) ht

theorem stripHyphens_cons_hyphen (x : Str) :
    stripHyphens ('-' :: x) = stripHyphens x := by
  simp [stripHyphens]

theorem strip_reinsert {v : Str} (hnh : ∀ c ∈ v, c ≠ '-') :
    stripHyphens (reinsertHyphens v) = v := by
  unfold reinsertHyphens
  simp only [List.append_assoc, List.cons_append]
  rw [stripHyphens_append, stripHyphens_cons_hyphen, stripHyphens_append,
    stripHyphens_cons_hyphen, stripHyphens_append, stripHyphens_cons_hyphen,
    stripHyphens_append, stripHyphens_cons_hyphen]
  rw [stripHyphens_of_no_hyphen
      (fun c hc => hnh c (List.take_subset 8 v hc)),
    stripHyphens_of_no_hyphen (fun c hc =>
      hnh c (List.drop_subset 8 v (List.take_subset 4 (v.drop 8) hc))),
    stripHyphens_of_no_hyphen (fun c hc =>
      hnh c (List.drop_subset 12 v (List.take_subset 4 (v.drop 12) hc))),
    stripHyphens_of_no_hyphen (fun c hc =>
      hnh c (List.drop_subset 16 v (List.take_subset 4 (v.drop 16) hc))),
    stripHyphens_of_no_hyphen (fun c hc => hnh c (List.drop_subset 20 v hc))]
  have e4 : (v.drop 16).take 4 ++ v.drop 20 = v.drop 16 := by
    have hd : (v.drop 16).drop 4 = v.drop 20 := by
      rw [List.drop_drop]
    rw [← hd]
    exact List.take_append_drop 4 (v.drop 16)
  rw [e4]
  have e3 : (v.drop 12).take 4 ++ v.drop 16 = v.drop 12 := by
    have hd : (v.drop 12).drop 4 = v.drop 16 := by
      rw [List.drop_drop]
    rw [← hd]
    exact List.take_append_drop 4 (v.drop 12)
  rw [e3]
  have e2 : (v.drop 8).take 4 ++ v.drop 12 = v.drop 8 := by
    have hd : (v.drop 8).drop 4 = v.drop 12 := by
      rw [List.drop_drop]
    rw [← hd]
    exact List.take_append_drop 4 (v.drop 8)
  rw [e2]
  exact List.take_append_drop 8 v

/-- For a string accepted by `UUID_PATTERN`, the normalized form is again
accepted and normalization fixes it. -/
theorem normalize_clean_fixed {s : Str} (h : matchUuidPattern s = true) :
    matchUuidPattern (normalize_clean s) = true ∧
      normalize_clean (normalize_clean s) = normalize_clean s := by
  obtain ⟨u0, t, hst, hl, hh, ht⟩ := strip_of_match h
  have hcs : normalize_clean s = reinsertHyphens (lowerStr u0 ++ t) := by
    show reinsertHyphens (lowerStr (stripHyphens s)) = _
    rw [hst, lowerStr_append, lowerStr_dollar ht]
  have hul : (lowerStr u0).length = 32 := by
    simp [lowerStr, hl]
  have huh : (lowerStr u0).all isHexChar = true := lowerStr_all_hex hh
  have hfix : lowerStr (lowerStr u0) = lowerStr u0 := lowerStr_lowerStr_hex hh
  have hnh : ∀ c ∈ lowerStr u0 ++ t, c ≠ '-' := by
    intro c hc
    rcases List.mem_append.mp hc with hcu | hct
    · exact hexChar_ne_hyphen (List.all_eq_true.mp huh c hcu)
    · rcases ht with rfl | rfl
      · cases hct
      · rw [List.mem_singleton.mp hct]
        decide
  constructor
  · rw [hcs]
    exact matchUuid_reinsert hul huh ht
  · rw [hcs]
    show reinsertHyphens (lowerStr (stripHyphens
      (reinsertHyphens (lowerStr u0 ++ t)))) =
        reinsertHyphens (lowerStr u0 ++ t)
    rw [strip_reinsert hnh, lowerStr_append, hfix, lowerStr_dollar ht]

/-! SIG-pattern lemmas -/

theorem matchLitCI_some {pat s t : Str} :
    matchLitCI pat s = some t ↔ ∃ p, s = p ++ t ∧ p.map Char.toLower = pat := by
  induction pat generalizing s with
  | nil =>
    simp only [matchLitCI, Option.some_inj]
    constructor
    · rintro rfl
      exact ⟨[], rfl, rfl⟩
    · rintro ⟨p, rfl, hp⟩
      rw [List.map_eq_nil_iff] at hp
      rw [hp, List.nil_append]
  | cons q qs ih =>
    cases s with
    | nil =>
      simp only [matchLitCI]
      constructor
      · intro h
        cases h
      · rintro ⟨p, hp, hm⟩
        have h1 := congrArg List.length hp
        have h2 := congrArg List.length hm
        simp at h1 h2
        omega
    | cons c cs =>
      by_cases hc : Char.toLower c = q
      · rw [show matchLitCI (q :: qs) (c :: cs) = matchLitCI qs cs from by
          simp [matchLitCI, hc]]
        rw [ih]
        constructor
        · rintro ⟨p, rfl, hm⟩
          exact ⟨c :: p, rfl, by simp [hc, hm]⟩
        · rintro ⟨p, hp, hm⟩
          cases p with
          | nil => simp at hm
          | cons d ds =>
            simp only [List.cons_append, List.cons.injEq] at hp
            rcases hp with ⟨rfl, rfl⟩
            simp only [List.map_cons, List.cons.injEq] at hm
            exact ⟨ds, rfl, hm.2⟩
      · rw [show matchLitCI (q :: qs) (c :: cs) = none from by
          simp [matchLitCI, hc]]
        constructor
        · intro h
          cases h
        · rintro ⟨p, hp, hm⟩
          cases p with
          | nil => simp at hm
          | cons d ds =>
            simp only [List.cons_append, List.cons.injEq] at hp
            rcases hp with ⟨rfl, rfl⟩
            simp only [List.map_cons, List.cons.injEq] at hm
            exact absurd hm.1 hc

theorem grabHex_some {n : Nat} {s g t : Str} :
    grabHex n s = some (g, t) ↔
      s = g ++ t ∧ g.length = n ∧ g.all isHexChar = true := by
  induction n generalizing s g with
  | zero =>
    simp only [grabHex, Option.some_inj, Prod.mk.injEq]
    constructor
    · rintro ⟨rfl, rfl⟩
      exact ⟨rfl, rfl, rfl⟩
    · rintro ⟨rfl, hl, _⟩
      rw [List.length_eq_zero] at hl
      subst hl
      exact ⟨rfl, rfl⟩
  | succ n ih =>
    cases s with
    | nil =>
      simp only [grabHex]
      constructor
      · intro h
        cases h
      · rintro ⟨hp, hl, _⟩
        have := congrArg List.length hp
        simp [hl] at this
        omega
    | cons c cs =>
      by_cases hc : isHexChar c = true
      · constructor
        · intro h
          rw [show grabHex (n + 1) (c :: cs) =
              match grabHex n cs with
              | some (g2, r) => some (c :: g2, r)
              | none => none from by simp [grabHex, hc]] at h
          cases hg : grabHex n cs with
          | none => rw [hg] at h; cases h
          | some pr =>
            rcases pr with ⟨g2, r⟩
            rw [hg] at h
            simp only [Option.some_inj, Prod.mk.injEq] at h
            rcases h with ⟨rfl, rfl⟩
            obtain ⟨he, hl, hall⟩ := ih.mp hg
            exact ⟨by simp [he], by simp [hl], by simp [hc, hall]⟩
        · rintro ⟨hp, hl, hall⟩
          cases g with
          | nil => simp at hl
          | cons d ds =>
            simp only [List.cons_append, List.cons.injEq] at hp
            rcases hp with ⟨rfl, rfl⟩
            simp only [List.all_cons, Bool.and_eq_true] at hall
            have := ih.mpr ⟨rfl, by simpa using hl, hall.2⟩
            simp [grabHex, hc, this]
      · rw [show grabHex (n + 1) (c :: cs) = none from by simp [grabHex, hc]]
        constructor
        · intro h
          cases h
        · rintro ⟨hp, hl, hall⟩
          cases g with
          | nil => simp at hl
          | cons d ds =>
            simp only [List.cons_append, List.cons.injEq] at hp
            rcases hp with ⟨rfl, rfl⟩
            simp only [List.all_cons, Bool.and_eq_true] at hall
            exact absurd hall.1 hc

theorem all_hex_of_map_toLower {p q : Str} (h : p.map Char.toLower = q)
    (hq : q.all isHexChar = true) : p.all isHexChar = true := by
  subst h
  simp only [List.all_map, List.all_eq_true] at hq ⊢
  intro c hc
  exact hexChar_of_toLower rfl (hq c hc)

/-- A string matching the Bluetooth SIG base-UUID pattern also matches the
general `UUID_PATTERN`. -/
theorem sig_implies_pattern {s k : Str} (h : extract_short_uuid s = some k) :
    matchUuidPattern s = true := by
  unfold extract_short_uuid at h
  cases h0 : matchLitCI "0000".toList s with
  | none => simp only [h0] at h; cases h
  | some s1 =>
  simp only [h0] at h
  cases h1 : grabHex 4 s1 with
  | none => simp only [h1] at h; cases h
  | some pr =>
  rcases pr with ⟨g, s2⟩
  simp only [h1] at h
  cases h2 : matchLitCI SIG_SUFFIX s2 with
  | none => simp only [h2] at h; cases h
  | some rest =>
  simp only [h2] at h
  by_cases hd : matchDollar rest = true
  case neg =>
    rw [if_neg hd] at h
    cases h
  case pos =>
  have ht := matchDollar_elim hd
  obtain ⟨z, rfl, hz⟩ := matchLitCI_some.mp h0
  obtain ⟨he1, hgl, hgh⟩ := grabHex_some.mp h1
  obtain ⟨p, hp, hpm⟩ := matchLitCI_some.mp h2
  have hzh : z.all isHexChar = true :=
    all_hex_of_map_toLower hz (by decide)
  have hzl : z.length = 4 := by
    have := congrArg List.length hz
    simpa using this
  have hss : SIG_SUFFIX = '-' :: ("0000".toList ++ ('-' :: ("1000".toList ++
      ('-' :: ("8000".toList ++ ('-' :: "00805f9b34fb".toList)))))) := by rfl
  rw [hss] at hpm
  obtain ⟨c1, p1, rfl, hc1, hm1⟩ := List.map_eq_cons_iff.mp hpm
  obtain ⟨q1, r1, rfl, hq1, hm2⟩ := List.map_eq_append_iff.mp hm1
  obtain ⟨c2, p2, rfl, hc2, hm3⟩ := List.map_eq_cons_iff.mp hm2
  obtain ⟨q2, r2, rfl, hq2, hm4⟩ := List.map_eq_append_iff.mp hm3
  obtain ⟨c3, p3, rfl, hc3, hm5⟩ := List.map_eq_cons_iff.mp hm4
  obtain ⟨q3, r3, rfl, hq3, hm6⟩ := List.map_eq_append_iff.mp hm5
  obtain ⟨c4, p4, rfl, hc4, hm7⟩ := List.map_eq_cons_iff.mp hm6
  have hc1e : c1 = '-' := toLower_eq_hyphen hc1
  have hc2e : c2 = '-' := toLower_eq_hyphen hc2
  have hc3e : c3 = '-' := toLower_eq_hyphen hc3
  have hc4e : c4 = '-' := toLower_eq_hyphen hc4
  subst hc1e
  subst hc2e
  subst hc3e
  subst hc4e
  have hq1h : q1.all isHexChar = true := all_hex_of_map_toLower hq1 (by decide)
  have hq2h : q2.all isHexChar = true := all_hex_of_map_toLower hq2 (by decide)
  have hq3h : q3.all isHexChar = true := all_hex_of_map_toLower hq3 (by decide)
  have hq4h : p4.all isHexChar = true := all_hex_of_map_toLower hm7 (by decide)
  have hq1l : q1.length = 4 := by
    have := congrArg List.length hq1
    simpa using this
  have hq2l : q2.length = 4 := by
    have := congrArg List.length hq2
    simpa using this
  have hq3l : q3.length = 4 := by
    have := congrArg List.length hq3
    simpa using this
  have hq4l : p4.length = 12 := by
    have := congrArg List.length hm7
    simpa using this
  subst hp
  subst he1
  have hshape : matchUuidPattern ((z ++ g) ++
      ('-' :: (q1 ++ '-' :: (q2 ++ '-' :: (q3 ++ '-' :: (p4 ++ rest)))))) =
        true :=
    matchUuid_of_shape (by simp [hzh, hgh]) hq1h hq2h hq3h hq4h
      (by simp [hzl, hgl]) hq1l hq2l hq3l hq4l ht
  simp only [List.append_assoc, List.cons_append] at hshape ⊢
  exact hshape

/-! ## Bridging lemmas for the services -/

/-- A known-service hit implies the identifier matches `UUID_PATTERN`. -/
theorem known_service_pattern {uuid : Str} {svc : KnownService}
    (h : get_known_service uuid = some svc) : matchUuidPattern uuid = true := by
  unfold get_known_service at h
  cases he : extract_short_uuid uuid with
  | none => rw [he] at h; cases h
  | some short => exact sig_implies_pattern he

theorem classType_ofValue_value (t : ClassificationType) :
    ClassificationType.ofValue t.value = some t := by
  cases t <;> rfl

theorem confLevel_ofValue_value (c : ConfidenceLevel) :
    ConfidenceLevel.ofValue c.value = some c := by
  cases c <;> rfl

theorem filterMap_usable {l : List SearchResult}
    (h : ∀ r ∈ l, usable_source r = true) :
    l.filterMap
        (fun r => if usable_source r then some (source_of_result r) else none) =
      l.map source_of_result := by
  induction l with
  | nil => rfl
  | cons a t ih =>
    rw [List.filterMap_cons, List.map_cons]
    rw [h a (List.mem_cons_self a t)]
    rw [ih (fun r hr => h r (List.mem_cons_of_mem a hr))]
    simp

theorem build_sources_all_usable {rs : List SearchResult}
    (h : ∀ r ∈ rs.take 5, usable_source r = true) :
    build_sources rs = (rs.take 5).map source_of_result := by
  unfold build_sources
  exact filterMap_usable h

theorem mkCreate_ok {uuid : Str} (h : matchUuidPattern uuid = true)
    (name : Str) (ty : ClassificationType) (d : Str) (srcs : List SourceInfo)
    (conf : ConfidenceLevel) (t : Nat) :
    mkClassificationCreate uuid name ty d srcs conf t =
      Except.ok ⟨normalize_clean uuid, name, ty, d, srcs, conf, t⟩ := by
  unfold mkClassificationCreate
  rw [if_pos h]

/-! ## Claim theorems -/

/-- C5 (counterexample): the claim "normalize fails iff the input, after
removing all hyphens, is not exactly 32 hexadecimal characters" is false:
`"1234-56781234123412341234567890ab"` strips to exactly 32 hex characters,
yet `normalize_uuid` rejects it, because `UUID_PATTERN` only permits a hyphen
at the four standard gap positions. -/
theorem C5_counterexample :
    (stripHyphens "1234-56781234123412341234567890ab".toList).length = 32 ∧
      (stripHyphens "1234-56781234123412341234567890ab".toList).all isHexChar
        = true ∧
      normalize_uuid "1234-56781234123412341234567890ab".toList =
        Except.error ("Invalid UUID format: ".toList ++
          "1234-56781234123412341234567890ab".toList) := by
  refine ⟨rfl, rfl, ?_⟩
  rfl

/-- C5 (amended): `normalize_uuid raw` fails with a format error iff `raw`
does not match `UUID_PATTERN`: 8-4-4-4-12 hex groups, each of the four gap
hyphens individually optional, optionally followed by one trailing newline
(Python `$`).  A match guarantees — but is not implied by — the property
that `raw` minus hyphens is exactly 32 hex characters possibly followed by
that newline; in particular some 32-hex-after-stripping inputs are rejected
(misplaced hyphen) and some accepted inputs strip to 33 characters (trailing
newline).  On success the result is `raw` with hyphens stripped, letters
lowercased, and hyphens reinserted at offsets 8, 12, 16, 20. -/
theorem C5_normalize_contract (raw : Str) :
    (matchUuidPattern raw = true →
      normalize_uuid raw =
        Except.ok (reinsertHyphens (lowerStr (stripHyphens raw)))) ∧
    (matchUuidPattern raw = false →
      normalize_uuid raw =
        Except.error ("Invalid UUID format: ".toList ++ raw)) ∧
    (matchUuidPattern raw = true →
      ∃ u t, stripHyphens raw = u ++ t ∧ u.length = 32 ∧
        u.all isHexChar = true ∧ (t = [] ∨ t = ['\n'])) := by
  refine ⟨?_, ?_, ?_⟩
  · intro h
    unfold normalize_uuid
    rw [if_pos h]
    rfl
  · intro h
    unfold normalize_uuid
    rw [if_neg (by rw [h]; exact Bool.false_ne_true)]
  · intro h
    exact strip_of_match h

/-- C5 (witness): the contract applied to two concrete inputs: a mixed-case
hyphenated identifier, and the same identifier with a trailing newline, which
Python `$` accepts and which normalizes to 37 characters. -/
theorem C5_witness :
    normalize_uuid "0000180D-0000-1000-8000-00805F9B34FB".toList =
      Except.ok "0000180d-0000-1000-8000-00805f9b34fb".toList ∧
    normalize_uuid "0000180D-0000-1000-8000-00805F9B34FB\n".toList =
      Except.ok "0000180d-0000-1000-8000-00805f9b34fb\n".toList := by
  constructor
  · have h :=
      (C5_normalize_contract "0000180D-0000-1000-8000-00805F9B34FB".toList).1
        (by decide)
    rw [h]
    rfl
  · have h := (C5_normalize_contract
      "0000180D-0000-1000-8000-00805F9B34FB\n".toList).1 (by decide)
    rw [h]
    rfl

/-- C9: normalization is idempotent on every valid raw identifier: it
succeeds, and normalizing its output returns that output unchanged. -/
theorem C9_normalize_idempotent (r : Str) (h : matchUuidPattern r = true) :
    ∃ v, normalize_uuid r = Except.ok v ∧ normalize_uuid v = Except.ok v := by
  obtain ⟨hm, hfix⟩ := normalize_clean_fixed h
  refine ⟨normalize_clean r, ?_, ?_⟩
  · unfold normalize_uuid
    rw [if_pos h]
  · unfold normalize_uuid
    rw [if_pos hm, hfix]

/-- C9 (witness): idempotence at a concrete mixed-case valid input. -/
theorem C9_witness :
    ∃ v, normalize_uuid "0000180D00001000800000805F9B34FB".toList =
        Except.ok v ∧ normalize_uuid v = Except.ok v :=
  C9_normalize_idempotent "0000180D00001000800000805F9B34FB".toList (by decide)

/-- C1: for every identifier with a known-service hit and every result list,
`classify` returns a draft carrying the known service's name and description,
type `STANDARD_BLE_SERVICE`, confidence `HIGH`, and sources built from the
supplied results. -/
theorem C1_known_service_short_circuit
    (extractName : List SearchResult → Str) (uuid : Str)
    (rs : List SearchResult) (now : Nat) (svc : KnownService)
    (h : get_known_service uuid = some svc) :
    classify extractName uuid rs now = Except.ok
      ⟨normalize_clean uuid, svc.name, ClassificationType.STANDARD_BLE_SERVICE,
        svc.description, build_sources rs, ConfidenceLevel.HIGH, now⟩ := by
  have hm : matchUuidPattern uuid = true := known_service_pattern h
  unfold classify
  simp only [h]
  unfold mkClassificationCreate
  rw [if_pos hm]

/-- C1 (witness): the Battery Service identifier with zero results yields
name "Battery Service", type `STANDARD_BLE_SERVICE`, confidence `HIGH`. -/
theorem C1_witness :
    classify (fun _ => []) "0000180f-0000-1000-8000-00805f9b34fb".toList [] 0 =
      Except.ok
        ⟨"0000180f-0000-1000-8000-00805f9b34fb".toList,
          "Battery Service".toList, ClassificationType.STANDARD_BLE_SERVICE,
          "Battery Service for battery level reporting".toList, [],
          ConfidenceLevel.HIGH, 0⟩ := by
  have h := C1_known_service_short_circuit (fun _ => [])
    "0000180f-0000-1000-8000-00805f9b34fb".toList [] 0
    ⟨"180F".toList, "Battery Service".toList,
      "Battery Service for battery level reporting".toList⟩ (by rfl)
  rw [h]
  rfl

/-- C6: given a well-formed (pattern-valid) identifier, `classify` never
fails: for every name extractor and every result list (including the empty
list) it returns a draft record. -/
theorem C6_classify_total (extractName : List SearchResult → Str) (uuid : Str)
    (rs : List SearchResult) (now : Nat) (h : matchUuidPattern uuid = true) :
    ∃ draft, classify extractName uuid rs now = Except.ok draft := by
  unfold classify
  cases get_known_service uuid with
  | some svc => exact ⟨_, mkCreate_ok h _ _ _ _ _ _⟩
  | none =>
    by_cases he : rs.isEmpty
    · rw [if_pos he]
      exact ⟨_, mkCreate_ok h _ _ _ _ _ _⟩
    · rw [if_neg he]
      exact ⟨_, mkCreate_ok h _ _ _ _ _ _⟩

/-- C6 (witness): totality at a concrete canonical identifier that has no
knowledge-base entry, with an empty result list. -/
theorem C6_witness :
    ∃ draft, classify (fun _ => "X".toList)
      "12345678-1234-1234-1234-123456789abc".toList [] 0 =
        Except.ok draft :=
  C6_classify_total (fun _ => "X".toList)
    "12345678-1234-1234-1234-123456789abc".toList [] 0 (by decide)

/-- C7: every constructed classification response satisfies
`type = UNKNOWN implies confidence = LOW`; a construction attempt violating
the invariant succeeds (is not rejected) and is silently corrected to `LOW`,
while a non-Unknown type keeps its confidence. -/
theorem C7_unknown_low_invariant (uuid name : Str) (ty : ClassificationType)
    (d : Str) (srcs : List SourceInfo) (conf : ConfidenceLevel) (cached : Bool)
    (t : Nat) (h : matchUuidPattern uuid = true) :
    ∃ resp, mkClassificationResponse uuid name ty d srcs conf cached t =
        Except.ok resp ∧
      resp.type = ty ∧
      (resp.type = ClassificationType.UNKNOWN →
        resp.confidence = ConfidenceLevel.LOW) ∧
      (ty ≠ ClassificationType.UNKNOWN → resp.confidence = conf) := by
  unfold mkClassificationResponse
  rw [if_pos h]
  by_cases hc : ty = ClassificationType.UNKNOWN ∧ conf ≠ ConfidenceLevel.LOW
  · rw [if_pos hc]
    exact ⟨_, rfl, rfl, fun _ => rfl, fun hn => absurd hc.1 hn⟩
  · rw [if_neg hc]
    refine ⟨_, rfl, rfl, ?_, fun _ => rfl⟩
    intro hu
    simp only [not_and, not_not] at hc
    exact hc hu

/-- C7 (witness): an attempt to build a response with type Unknown and
confidence Medium succeeds and is auto-corrected to Low. -/
theorem C7_witness :
    ∃ resp, mkClassificationResponse
        "12345678-1234-1234-1234-123456789abc".toList "Unknown".toList
        ClassificationType.UNKNOWN "d".toList [] ConfidenceLevel.MEDIUM false 0 =
          Except.ok resp ∧
      resp.type = ClassificationType.UNKNOWN ∧
      (resp.type = ClassificationType.UNKNOWN →
        resp.confidence = ConfidenceLevel.LOW) ∧
      (ClassificationType.UNKNOWN ≠ ClassificationType.UNKNOWN →
        resp.confidence = ConfidenceLevel.MEDIUM) :=
  C7_unknown_low_invariant "12345678-1234-1234-1234-123456789abc".toList
    "Unknown".toList ClassificationType.UNKNOWN "d".toList []
    ConfidenceLevel.MEDIUM false 0 (by decide)

/-- C3: with no known-service match and a non-empty result list, the draft's
type is decided first-match-wins in the order: iBeacon indicators, Eddystone
indicators, Bluetooth SIG standard form, vendor indicators, generic BLE
terms, else Unknown — each textual rule tested against the lowercased
concatenation of every result's title and snippet. -/
theorem C3_type_detection_order (extractName : List SearchResult → Str)
    (uuid : Str) (rs : List SearchResult) (now : Nat)
    (hk : get_known_service uuid = none) (hne : rs ≠ [])
    (hm : matchUuidPattern uuid = true) :
    ∃ draft, classify extractName uuid rs now = Except.ok draft ∧
      draft.type =
        (let all_text := lowerStr (combine_result_text rs)
         if IBEACON_INDICATORS.any (fun i => isSubstrOf i all_text) then
           ClassificationType.APPLE_IBEACON
         else if EDDYSTONE_INDICATORS.any (fun i => isSubstrOf i all_text) then
           ClassificationType.GOOGLE_EDDYSTONE
         else if is_bluetooth_sig_uuid uuid then
           ClassificationType.STANDARD_BLE_SERVICE
         else if VENDOR_INDICATORS.any (fun v => isSubstrOf v all_text) then
           ClassificationType.VENDOR_SPECIFIC
         else if (["bluetooth", "ble", "gatt", "service",
             "characteristic"].map String.toList).any
               (fun i => isSubstrOf i all_text) then
           ClassificationType.CUSTOM_SERVICE
         else ClassificationType.UNKNOWN) := by
  have hie : rs.isEmpty = false := by
    cases rs with
    | nil => exact absurd rfl hne
    | cons a l => rfl
  unfold classify
  simp only [hk, hie, Bool.false_eq_true, if_false]
  rw [mkCreate_ok hm]
  exact ⟨_, rfl, rfl⟩

/-- C3 (witness): a result set with an Eddystone indicator (and no iBeacon
indicator) on a non-SIG identifier classifies as `GOOGLE_EDDYSTONE`. -/
theorem C3_witness :
    ∃ draft, classify (fun _ => "X".toList)
        "12345678-1234-1234-1234-123456789abc".toList
        [⟨"Eddystone beacon format".toList, "https://example.com".toList,
          "".toList, 1⟩] 0 = Except.ok draft ∧
      draft.type =
        (let all_text := lowerStr (combine_result_text
          [⟨"Eddystone beacon format".toList, "https://example.com".toList,
            "".toList, 1⟩])
         if IBEACON_INDICATORS.any (fun i => isSubstrOf i all_text) then
           ClassificationType.APPLE_IBEACON
         else if EDDYSTONE_INDICATORS.any (fun i => isSubstrOf i all_text) then
           ClassificationType.GOOGLE_EDDYSTONE
         else if is_bluetooth_sig_uuid
             "12345678-1234-1234-1234-123456789abc".toList then
           ClassificationType.STANDARD_BLE_SERVICE
         else if VENDOR_INDICATORS.any (fun v => isSubstrOf v all_text) then
           ClassificationType.VENDOR_SPECIFIC
         else if (["bluetooth", "ble", "gatt", "service",
             "characteristic"].map String.toList).any
               (fun i => isSubstrOf i all_text) then
           ClassificationType.CUSTOM_SERVICE
         else ClassificationType.UNKNOWN) :=
  C3_type_detection_order (fun _ => "X".toList)
    "12345678-1234-1234-1234-123456789abc".toList
    [⟨"Eddystone beacon format".toList, "https://example.com".toList,
      "".toList, 1⟩] 0 (by rfl) (by simp) (by decide)

/-- C2: for a non-empty result list and an extracted name other than
"Unknown", the computed confidence is HIGH iff at least 3 results mention the
lowercased name in their lowercased title+snippet and at least 1 result has
an authoritative URL; otherwise MEDIUM iff at least 2 mentions or at least 1
authoritative result; otherwise LOW.  With an empty list or name "Unknown"
the confidence is LOW. -/
theorem C2_confidence_rules (rs : List SearchResult) (extracted_name : Str) :
    (rs ≠ [] → extracted_name ≠ "Unknown".toList →
      ((calculate_confidence rs extracted_name = ConfidenceLevel.HIGH ↔
          3 ≤ rs.countP (fun r => isSubstrOf (lowerStr extracted_name)
              (lowerStr (r.title ++ ' ' :: r.snippet))) ∧
            1 ≤ rs.countP (fun r => is_authoritative_source r.url)) ∧
       (calculate_confidence rs extracted_name = ConfidenceLevel.MEDIUM ↔
          ¬ (3 ≤ rs.countP (fun r => isSubstrOf (lowerStr extracted_name)
              (lowerStr (r.title ++ ' ' :: r.snippet))) ∧
            1 ≤ rs.countP (fun r => is_authoritative_source r.url)) ∧
          (2 ≤ rs.countP (fun r => isSubstrOf (lowerStr extracted_name)
              (lowerStr (r.title ++ ' ' :: r.snippet))) ∨
            1 ≤ rs.countP (fun r => is_authoritative_source r.url))) ∧
       (calculate_confidence rs extracted_name = ConfidenceLevel.LOW ↔
          ¬ (3 ≤ rs.countP (fun r => isSubstrOf (lowerStr extracted_name)
              (lowerStr (r.title ++ ' ' :: r.snippet))) ∧
            1 ≤ rs.countP (fun r => is_authoritative_source r.url)) ∧
          ¬ (2 ≤ rs.countP (fun r => isSubstrOf (lowerStr extracted_name)
              (lowerStr (r.title ++ ' ' :: r.snippet))) ∨
            1 ≤ rs.countP (fun r => is_authoritative_source r.url))))) ∧
    ((rs = [] ∨ extracted_name = "Unknown".toList) →
      calculate_confidence rs extracted_name = ConfidenceLevel.LOW) := by
  constructor
  · intro h1 h2
    have hie : rs.isEmpty = false := by
      cases rs with
      | nil => exact absurd rfl h1
      | cons a l => rfl
    unfold calculate_confidence
    rw [if_neg (by
      rintro (he | hu)
      · rw [hie] at he
        cases he
      · exact h2 hu)]
    by_cases hH : 3 ≤ rs.countP (fun r => isSubstrOf (lowerStr extracted_name)
        (lowerStr (r.title ++ ' ' :: r.snippet))) ∧
        1 ≤ rs.countP (fun r => is_authoritative_source r.url)
    · rw [if_pos hH]
      refine ⟨⟨fun _ => hH, fun _ => rfl⟩, ?_, ?_⟩
      · constructor
        · intro he
          cases he
        · rintro ⟨hn, _⟩
          exact absurd hH hn
      · constructor
        · intro he
          cases he
        · rintro ⟨hn, _⟩
          exact absurd hH hn
    · rw [if_neg hH]
      by_cases hM : 2 ≤ rs.countP (fun r => isSubstrOf (lowerStr extracted_name)
          (lowerStr (r.title ++ ' ' :: r.snippet))) ∨
          1 ≤ rs.countP (fun r => is_authoritative_source r.url)
      · rw [if_pos hM]
        refine ⟨?_, ⟨fun _ => ⟨hH, hM⟩, fun _ => rfl⟩, ?_⟩
        · constructor
          · intro he
            cases he
          · intro hc
            exact absurd hc hH
        · constructor
          · intro he
            cases he
          · rintro ⟨_, hn⟩
            exact absurd hM hn
      · rw [if_neg hM]
        refine ⟨?_, ?_, ⟨fun _ => ⟨hH, hM⟩, fun _ => rfl⟩⟩
        · constructor
          · intro he
            cases he
          · intro hc
            exact absurd hc hH
        · constructor
          · intro he
            cases he
          · rintro ⟨_, hc⟩
            exact absurd hc hM
  · intro h
    unfold calculate_confidence
    rw [if_pos ?_]
    rcases h with rfl | hu
    · exact Or.inl rfl
    · exact Or.inr hu

/-- C2 (witness): three results all mentioning the extracted name with one
authoritative source yield HIGH confidence. -/
theorem C2_witness :
    calculate_confidence
      [⟨"Heart Rate Service".toList, "https://www.bluetooth.com/a".toList,
        "".toList, 1⟩,
       ⟨"Heart Rate info".toList, "https://example.com/b".toList,
        "".toList, 2⟩,
       ⟨"About Heart Rate".toList, "https://example.com/c".toList,
        "".toList, 3⟩] "Heart Rate".toList = ConfidenceLevel.HIGH := by
  have h := (C2_confidence_rules
    [⟨"Heart Rate Service".toList, "https://www.bluetooth.com/a".toList,
      "".toList, 1⟩,
     ⟨"Heart Rate info".toList, "https://example.com/b".toList,
      "".toList, 2⟩,
     ⟨"About Heart Rate".toList, "https://example.com/c".toList,
      "".toList, 3⟩] "Heart Rate".toList).1 (by simp) (by decide)
  exact h.1.mpr (by decide)

/-- C4 (counterexample): the claim "more than 5 usable results yields exactly
5 sources" is false: with 7 results of which 6 have representable URLs but
the unusable one is ranked first, `_build_sources` truncates to the first 5
results before filtering and produces only 4 sources. -/
theorem C4_counterexample :
    ([⟨"T1".toList, "www.example.com/0".toList, "".toList, 1⟩,
      ⟨"T2".toList, "https://example.com/1".toList, "".toList, 2⟩,
      ⟨"T3".toList, "https://example.com/2".toList, "".toList, 3⟩,
      ⟨"T4".toList, "https://example.com/3".toList, "".toList, 4⟩,
      ⟨"T5".toList, "https://example.com/4".toList, "".toList, 5⟩,
      ⟨"T6".toList, "https://example.com/5".toList, "".toList, 6⟩,
      ⟨"T7".toList, "https://example.com/6".toList, "".toList, 7⟩]
        : List SearchResult).countP (fun r => isValidSourceUrl r.url) = 6 ∧
    (classify (fun _ => "X".toList)
      "12345678-1234-1234-1234-123456789abc".toList
      [⟨"T1".toList, "www.example.com/0".toList, "".toList, 1⟩,
       ⟨"T2".toList, "https://example.com/1".toList, "".toList, 2⟩,
       ⟨"T3".toList, "https://example.com/2".toList, "".toList, 3⟩,
       ⟨"T4".toList, "https://example.com/3".toList, "".toList, 4⟩,
       ⟨"T5".toList, "https://example.com/4".toList, "".toList, 5⟩,
       ⟨"T6".toList, "https://example.com/5".toList, "".toList, 6⟩,
       ⟨"T7".toList, "https://example.com/6".toList, "".toList, 7⟩]
      0).map (fun d => d.sources.length) = Except.ok 4 := by
  constructor
  · rfl
  · rfl

/-- C4 (amended): for every input list with more than 5 results whose first 5
results are all usable (representable URL, non-empty title), the draft
produced by `classify` has exactly 5 sources, namely the first 5 results
converted in their original rank order. -/
theorem C4_source_cap (extractName : List SearchResult → Str) (uuid : Str)
    (rs : List SearchResult) (now : Nat)
    (hm : matchUuidPattern uuid = true) (hlen : 5 < rs.length)
    (hus : ∀ r ∈ rs.take 5, usable_source r = true) :
    ∃ draft, classify extractName uuid rs now = Except.ok draft ∧
      draft.sources = (rs.take 5).map source_of_result ∧
      draft.sources.length = 5 := by
  have hb : build_sources rs = (rs.take 5).map source_of_result :=
    build_sources_all_usable hus
  have hl5 : ((rs.take 5).map source_of_result).length = 5 := by
    rw [List.length_map, List.length_take]
    omega
  have hie : rs.isEmpty = false := by
    cases rs with
    | nil => simp at hlen
    | cons a l => rfl
  unfold classify
  cases get_known_service uuid with
  | some svc =>
    refine ⟨_, mkCreate_ok hm _ _ _ _ _ _, ?_, ?_⟩
    · exact hb
    · show (build_sources rs).length = 5
      rw [hb]
      exact hl5
  | none =>
    simp only [hie, Bool.false_eq_true, if_false]
    refine ⟨_, mkCreate_ok hm _ _ _ _ _ _, ?_, ?_⟩
    · exact hb
    · show (build_sources rs).length = 5
      rw [hb]
      exact hl5

/-- C4 (witness): six usable results, first five usable, yield exactly the
first five sources in rank order. -/
theorem C4_witness :
    ∃ draft, classify (fun _ => "X".toList)
        "12345678-1234-1234-1234-123456789abc".toList
        [⟨"T1".toList, "https://example.com/0".toList, "".toList, 1⟩,
         ⟨"T2".toList, "https://example.com/1".toList, "".toList, 2⟩,
         ⟨"T3".toList, "https://example.com/2".toList, "".toList, 3⟩,
         ⟨"T4".toList, "https://example.com/3".toList, "".toList, 4⟩,
         ⟨"T5".toList, "https://example.com/4".toList, "".toList, 5⟩,
         ⟨"T6".toList, "https://example.com/5".toList, "".toList, 6⟩]
        0 = Except.ok draft ∧
      draft.sources =
        (([⟨"T1".toList, "https://example.com/0".toList, "".toList, 1⟩,
          ⟨"T2".toList, "https://example.com/1".toList, "".toList, 2⟩,
          ⟨"T3".toList, "https://example.com/2".toList, "".toList, 3⟩,
          ⟨"T4".toList, "https://example.com/3".toList, "".toList, 4⟩,
          ⟨"T5".toList, "https://example.com/4".toList, "".toList, 5⟩,
          ⟨"T6".toList, "https://example.com/5".toList, "".toList, 6⟩]
            : List SearchResult).take 5).map source_of_result ∧
      draft.sources.length = 5 :=
  C4_source_cap (fun _ => "X".toList)
    "12345678-1234-1234-1234-123456789abc".toList
    [⟨"T1".toList, "https://example.com/0".toList, "".toList, 1⟩,
     ⟨"T2".toList, "https://example.com/1".toList, "".toList, 2⟩,
     ⟨"T3".toList, "https://example.com/2".toList, "".toList, 3⟩,
     ⟨"T4".toList, "https://example.com/3".toList, "".toList, 4⟩,
     ⟨"T5".toList, "https://example.com/4".toList, "".toList, 5⟩,
     ⟨"T6".toList, "https://example.com/5".toList, "".toList, 6⟩]
    0 (by decide) (by decide) (by decide)

/-! ## Cache-layer bridging lemmas -/

theorem normalize_ok_elim {x n : Str} (h : normalize_uuid x = Except.ok n) :
    matchUuidPattern x = true ∧ n = normalize_clean x := by
  unfold normalize_uuid at h
  by_cases hm : matchUuidPattern x = true
  · rw [if_pos hm] at h
    exact ⟨hm, (Except.ok.inj h).symm⟩
  · rw [if_neg hm] at h
    cases h

theorem normalize_fixpoint {x n : Str} (h : normalize_uuid x = Except.ok n) :
    normalize_uuid n = Except.ok n := by
  obtain ⟨hm, rfl⟩ := normalize_ok_elim h
  obtain ⟨hm2, hfix⟩ := normalize_clean_fixed hm
  unfold normalize_uuid
  rw [if_pos hm2, hfix]

/-- The row built by `save_classification` from a draft. -/
def row_of_draft (n : Str) (d : ClassificationCreate) :
    UUIDClassificationRecord :=
  ⟨n, d.name, d.type.value, d.description, d.sources, d.confidence.value,
    d.searched_at⟩

theorem save_insert {store : Store} {d : ClassificationCreate} {n : Str}
    (h : normalize_uuid d.uuid = Except.ok n)
    (hmiss : store.lookup n = none) :
    save_classification store d =
      ((n, row_of_draft n d) :: store,
        record_to_response (row_of_draft n d) false) := by
  unfold save_classification
  simp only [h, normalize_fixpoint h, hmiss]
  rfl

theorem record_to_response_ok {n : Str} (d : ClassificationCreate)
    (hm : matchUuidPattern n = true) (cached : Bool) :
    record_to_response (row_of_draft n d) cached =
      Except.ok ⟨normalize_clean n, d.name, d.type, d.description, d.sources,
        (if d.type = ClassificationType.UNKNOWN ∧
            d.confidence ≠ ConfidenceLevel.LOW then ConfidenceLevel.LOW
          else d.confidence), cached, d.searched_at⟩ := by
  unfold record_to_response row_of_draft
  simp only [classType_ofValue_value, confLevel_ofValue_value]
  unfold mkClassificationResponse
  rw [if_pos hm]

theorem lookup_cons_self {n : Str} (row : UUIDClassificationRecord)
    (store : Store) : ((n, row) :: store).lookup n = some row := by
  simp [List.lookup]

/-- C8: saving a draft for an identifier already present in the cache fails
with the duplicate error and leaves the store untouched; concretely, after a
first successful save of a draft, a second save of any draft with the same
canonical identifier fails and the first stored row is unchanged. -/
theorem C8_duplicate_rejected (store : Store) (d1 d2 : ClassificationCreate)
    (n : Str) (h1 : normalize_uuid d1.uuid = Except.ok n)
    (h2 : normalize_uuid d2.uuid = Except.ok n)
    (hmiss : store.lookup n = none) :
    ∃ row, (save_classification store d1).1 = (n, row) :: store ∧
      (∃ resp, (save_classification store d1).2 = Except.ok resp) ∧
      save_classification ((n, row) :: store) d2 =
        ((n, row) :: store, Except.error (duplicate_error n)) ∧
      ((n, row) :: store).lookup n = some row := by
  have hmn : matchUuidPattern n = true :=
    (normalize_ok_elim (normalize_fixpoint h1)).1
  refine ⟨row_of_draft n d1, ?_, ?_, ?_, lookup_cons_self _ _⟩
  · rw [save_insert h1 hmiss]
  · rw [save_insert h1 hmiss]
    exact ⟨_, record_to_response_ok d1 hmn false⟩
  · unfold save_classification
    simp only [h2, normalize_fixpoint h2, lookup_cons_self]
    rfl

/-- C8 (witness): two drafts for the same identifier in different letter
cases; the second save fails with the duplicate error. -/
theorem C8_witness :
    ∃ row, (save_classification []
        ⟨"0000180F-0000-1000-8000-00805F9B34FB".toList, "Battery".toList,
          ClassificationType.STANDARD_BLE_SERVICE, "d1".toList, [],
          ConfidenceLevel.HIGH, 0⟩).1 =
      ("0000180f-0000-1000-8000-00805f9b34fb".toList, row) :: [] ∧
      (∃ resp, (save_classification []
        ⟨"0000180F-0000-1000-8000-00805F9B34FB".toList, "Battery".toList,
          ClassificationType.STANDARD_BLE_SERVICE, "d1".toList, [],
          ConfidenceLevel.HIGH, 0⟩).2 = Except.ok resp) ∧
      save_classification
        [("0000180f-0000-1000-8000-00805f9b34fb".toList, row)]
        ⟨"0000180f-0000-1000-8000-00805f9b34fb".toList, "Other".toList,
          ClassificationType.CUSTOM_SERVICE, "d2".toList, [],
          ConfidenceLevel.LOW, 1⟩ =
        ([("0000180f-0000-1000-8000-00805f9b34fb".toList, row)],
          Except.error (duplicate_error
            "0000180f-0000-1000-8000-00805f9b34fb".toList)) ∧
      [("0000180f-0000-1000-8000-00805f9b34fb".toList, row)].lookup
        "0000180f-0000-1000-8000-00805f9b34fb".toList = some row :=
  C8_duplicate_rejected []
    ⟨"0000180F-0000-1000-8000-00805F9B34FB".toList, "Battery".toList,
      ClassificationType.STANDARD_BLE_SERVICE, "d1".toList, [],
      ConfidenceLevel.HIGH, 0⟩
    ⟨"0000180f-0000-1000-8000-00805f9b34fb".toList, "Other".toList,
      ClassificationType.CUSTOM_SERVICE, "d2".toList, [],
      ConfidenceLevel.LOW, 1⟩
    "0000180f-0000-1000-8000-00805f9b34fb".toList (by rfl) (by rfl) (by rfl)

/-- C10: `save_classification` persists the draft's confidence (and type)
string values verbatim — the Unknown-implies-Low correction exists only on
the response view — so an Unknown/Medium draft is stored with confidence
"medium" while both the response returned by save and the response served
from a later cache read report Low. -/
theorem C10_confidence_persisted_verbatim (store : Store)
    (d : ClassificationCreate) (n : Str)
    (h1 : normalize_uuid d.uuid = Except.ok n)
    (hmiss : store.lookup n = none) :
    ∃ row resp,
      save_classification store d = ((n, row) :: store, Except.ok resp) ∧
      row.confidence = d.confidence.value ∧
      row.type = d.type.value ∧
      (d.type = ClassificationType.UNKNOWN →
        resp.confidence = ConfidenceLevel.LOW) ∧
      (∃ resp2, get_classification ((n, row) :: store) n =
          Except.ok (some resp2) ∧
        (d.type = ClassificationType.UNKNOWN →
          resp2.confidence = ConfidenceLevel.LOW)) := by
  have hmn : matchUuidPattern n = true :=
    (normalize_ok_elim (normalize_fixpoint h1)).1
  have hconf : (if d.type = ClassificationType.UNKNOWN ∧
      d.confidence ≠ ConfidenceLevel.LOW then ConfidenceLevel.LOW
        else d.confidence) = ConfidenceLevel.LOW ∨
      ¬ d.type = ClassificationType.UNKNOWN := by
    by_cases hu : d.type = ClassificationType.UNKNOWN
    · by_cases hl : d.confidence = ConfidenceLevel.LOW
      · left
        rw [if_neg (by
          rintro ⟨_, hne⟩
          exact hne hl)]
        exact hl
      · left
        rw [if_pos ⟨hu, hl⟩]
    · right
      exact hu
  refine ⟨row_of_draft n d,
    ⟨normalize_clean n, d.name, d.type, d.description, d.sources,
      (if d.type = ClassificationType.UNKNOWN ∧
          d.confidence ≠ ConfidenceLevel.LOW then ConfidenceLevel.LOW
        else d.confidence), false, d.searched_at⟩, ?_, rfl, rfl, ?_, ?_⟩
  · rw [save_insert h1 hmiss, record_to_response_ok d hmn false]
  · intro hu
    rcases hconf with hc | hc
    · exact hc
    · exact absurd hu hc
  · refine ⟨⟨normalize_clean n, d.name, d.type, d.description, d.sources,
      (if d.type = ClassificationType.UNKNOWN ∧
          d.confidence ≠ ConfidenceLevel.LOW then ConfidenceLevel.LOW
        else d.confidence), true, d.searched_at⟩, ?_, ?_⟩
    · unfold get_classification
      simp only [normalize_fixpoint h1, lookup_cons_self,
        record_to_response_ok d hmn true]
      rfl
    · intro hu
      rcases hconf with hc | hc
      · exact hc
      · exact absurd hu hc

/-- C10 (witness): an Unknown/Medium draft on an empty store. -/
theorem C10_witness :
    ∃ row resp,
      save_classification []
          ⟨"12345678-1234-1234-1234-123456789abc".toList, "x".toList,
            ClassificationType.UNKNOWN, "d".toList, [],
            ConfidenceLevel.MEDIUM, 0⟩ =
        (("12345678-1234-1234-1234-123456789abc".toList, row) :: [],
          Except.ok resp) ∧
      row.confidence = ConfidenceLevel.MEDIUM.value ∧
      row.type = ClassificationType.UNKNOWN.value ∧
      (ClassificationType.UNKNOWN = ClassificationType.UNKNOWN →
        resp.confidence = ConfidenceLevel.LOW) ∧
      (∃ resp2, get_classification
          [("12345678-1234-1234-1234-123456789abc".toList, row)]
          "12345678-1234-1234-1234-123456789abc".toList =
            Except.ok (some resp2) ∧
        (ClassificationType.UNKNOWN = ClassificationType.UNKNOWN →
          resp2.confidence = ConfidenceLevel.LOW)) :=
  C10_confidence_persisted_verbatim []
    ⟨"12345678-1234-1234-1234-123456789abc".toList, "x".toList,
      ClassificationType.UNKNOWN, "d".toList, [], ConfidenceLevel.MEDIUM, 0⟩
    "12345678-1234-1234-1234-123456789abc".toList (by rfl) (by rfl)

end UuidClassifier
